import Mathlib

/-!
Verification of the swap-execution core of the SovereignClaw/ClawKalash
repository against its specification.

The definitions below are a shallow embedding of the TypeScript source:

* `withRetry`, `safeFetch`-style error classification, `searchTokens`,
  `cachedSearch`, `resolveToken`, `submitPermit2` embed the Bungee API
  client (`src/unnamed/part_000`, the module imported as `api.js`);
* `validateNativeTxData`, `validatePermit2SignData`, `pollStatus`,
  `handleApproval`, `executeNativeTokenSwap`, `executePermit2Swap`,
  `executeSwap` embed `src/scripts/swap.ts`.

Remote services and the chain RPC are modelled as oracles: every network
response the code consumes is a parameter (a value or a `Nat`-indexed
function for calls made in a loop).  Decimal-string amounts are modelled
by the integers they encode (the spec fixes amounts as arbitrary-precision
integers encoded as canonical decimal strings); JS `BigInt` comparison
becomes `Int` equality and `String(x)` on such an amount becomes
`toString`.  Side effects that matter to the claims (signing, sending a
transaction, posting to the settlement service, sleeping, querying
status) are reified as an `Event` trace returned alongside the result.
-/

deriving instance DecidableEq for Except

/-- Helper: `Except` carries an error. -/
def isError {ε α : Type} : Except ε α → Bool
  | .error _ => true
  | .ok _ => false

-- ============ String containment (JS `String.prototype.includes`) ============

/-- Helper: the first list is a leading segment of the second. -/
def startsWithChars : List Char → List Char → Bool
  | [], _ => true
  | _ :: _, [] => false
  | a :: as, b :: bs => a = b && startsWithChars as bs

/-- Helper: the needle occurs contiguously somewhere in the haystack. -/
def hasSubstrChars (needle : List Char) : List Char → Bool
  | [] => startsWithChars needle []
  | c :: rest => startsWithChars needle (c :: rest) || hasSubstrChars needle rest

/-- Helper: JS `hay.includes(needle)`. -/
def hasSubstr (hay needle : String) : Bool :=
  hasSubstrChars needle.toList hay.toList

/-- Helper: JS `s.toLowerCase()` (kernel-reducible form of `String.toLower`). -/
def strToLower (s : String) : String := ⟨s.data.map Char.toLower⟩

/-- Helper: JS `s.startsWith(p)`. -/
def strStartsWith (s p : String) : Bool := startsWithChars p.toList s.toList

/-- Helper: JS `s.slice(0, n)` (kernel-reducible form of `String.take`). -/
def strTake (s : String) (n : Nat) : String := ⟨s.data.take n⟩

-- ============ Retry wrapper (src/unnamed/part_000, withRetry) ============

/-- Error classification inside `withRetry`: `err.message.includes('429') ||
err.message.includes('<!doctype') || err.message.includes('is not valid JSON')`. -/
def isRateLimitErr (msg : String) : Bool :=
  hasSubstr msg "429" || hasSubstr msg "<!doctype" || hasSubstr msg "is not valid JSON"

/-- Outcome of one `withRetry` run: final result, number of invocations of
the wrapped call, and the backoff waits (ms) slept between invocations. -/
structure RetryRun (α : Type) where
  result : Except String α
  calls : Nat
  waits : List Nat
deriving Repr

/-- Loop body of `withRetry`: `i` is the current 0-based attempt index and
`rem` the number of attempts still allowed (`attempts - i`).  The wrapped
call is the oracle `fn`, indexed by invocation number.  Mirrors:
`for (i = 0; i < attempts; i++) { try { return await fn(); } catch (err) {
if (i === attempts - 1) throw err; const wait = isRateLimit ?
Math.max(delayMs*(i+1),3000)*(i+1) : delayMs*(i+1); await sleep(wait); } }`. -/
def withRetryAux {α : Type} (fn : Nat → Except String α) (delayMs : Nat) :
    Nat → Nat → RetryRun α
  | i, 0 => ⟨.error "Unreachable", i, []⟩
  | i, rem + 1 =>
    match fn i with
    | .ok v => ⟨.ok v, i + 1, []⟩
    | .error e =>
      if rem = 0 then ⟨.error e, i + 1, []⟩
      else
        let wait := if isRateLimitErr e then (max (delayMs * (i + 1)) 3000) * (i + 1)
                    else delayMs * (i + 1)
        let r := withRetryAux fn delayMs (i + 1) rem
        ⟨r.result, r.calls, wait :: r.waits⟩

/-- `withRetry(fn, attempts, delayMs)` from the API client.  The source
defaults are `attempts = 3`, `delayMs = 1000`. -/
def withRetry {α : Type} (fn : Nat → Except String α) (attempts delayMs : Nat) :
    RetryRun α :=
  withRetryAux fn delayMs 0 attempts

-- ============ Quote validation (src/scripts/swap.ts) ============

/-- The all-zero destination sentinel rejected by `validateNativeTxData`. -/
def zeroAddress : String := "0x0000000000000000000000000000000000000000"

/-- `quote.txData`: destination, call data, value (the integer the decimal
string encodes) and an optional chain id (`undefined` is `none`). -/
structure TxData where
  «to» : String
  data : String
  value : Int
  chainId : Option Nat
deriving DecidableEq, Repr

/-- `validateNativeTxData(txData, expectedAmount, expectedChainId)`.
JS truthiness: `if (txData.chainId && txData.chainId !== expectedChainId)`
only fires when the carried chain id is present and nonzero. -/
def validateNativeTxData (txData : TxData) (expectedAmount : Int)
    (expectedChainId : Nat) : Except String Unit :=
  if txData.value ≠ expectedAmount then
    .error "txData.value does not match expected input amount"
  else if txData.«to» = zeroAddress then
    .error "txData.to is the zero address - refusing to send"
  else
    match txData.chainId with
    | some c =>
      if c ≠ 0 ∧ c ≠ expectedChainId then
        .error "txData.chainId does not match origin chain"
      else .ok ()
    | none => .ok ()

/-- Canonical Permit2 contract address (`PERMIT2_ADDRESS` in `types.ts`,
also spelled out at `src/scripts/cli.ts:638`). -/
def PERMIT2_ADDRESS : String := "0x000000000022D473030F116dDEE9F6B43aC78BA3"

/-- `message.permitted`, with amount kept as the raw string the payload
carried (`String(permitted.amount)`). -/
structure Permitted where
  amount : String
  token : String
deriving DecidableEq, Repr

/-- `signTypedData.domain`. -/
structure TypedDomain where
  verifyingContract : String
deriving DecidableEq, Repr

/-- `signTypedData.values`. -/
structure TypedValues where
  permitted : Option Permitted
deriving DecidableEq, Repr

/-- The structured-data payload handed to `validatePermit2SignData`. -/
structure SignTypedData where
  domain : TypedDomain
  values : TypedValues
deriving DecidableEq, Repr

/-- `validatePermit2SignData(signTypedData, expectedToken, expectedAmount)`. -/
def validatePermit2SignData (signTypedData : SignTypedData)
    (expectedToken expectedAmount : String) : Except String Unit :=
  if strToLower signTypedData.domain.verifyingContract ≠ strToLower PERMIT2_ADDRESS then
    .error "Permit2 verifyingContract mismatch"
  else
    match signTypedData.values.permitted with
    | some permitted =>
      if permitted.amount ≠ expectedAmount then
        .error "Permit2 amount mismatch"
      else if strToLower permitted.token ≠ strToLower expectedToken then
        .error "Permit2 token mismatch"
      else .ok ()
    | none => .ok ()

-- ============ Token search (src/unnamed/part_000, searchTokens) ============

/-- One entry of the remote search response (`TokenSearchResult`). -/
structure TokenSearchResult where
  chainId : Nat
  address : String
  symbol : String
  decimals : Nat
  isVerified : Bool
  isShortListed : Bool
deriving DecidableEq, Repr

/-- Ranking score used by the comparator in `searchTokens`:
`(t.isShortListed ? 2 : 0) + (t.isVerified ? 1 : 0)`. -/
def score (t : TokenSearchResult) : Nat :=
  (if t.isShortListed then 2 else 0) + (if t.isVerified then 1 else 0)

/-- Stable descending insertion by `score`: the inserted element goes in
front of the first element whose score is not larger.  Any stable sort for
the comparator `bScore - aScore` (JS `Array.prototype.sort` is stable)
produces the same list, so this models the `flat.sort(...)` call. -/
def insertByScore (x : TokenSearchResult) :
    List TokenSearchResult → List TokenSearchResult
  | [] => [x]
  | y :: ys => if score y ≤ score x then x :: y :: ys else y :: insertByScore x ys

/-- Stable descending sort by `score` (model of `flat.sort((a, b) => bScore - aScore)`). -/
def sortByScoreDesc : List TokenSearchResult → List TokenSearchResult
  | [] => []
  | x :: xs => insertByScore x (sortByScoreDesc xs)

/-- Adjacent scores never increase. -/
def isSortedByScoreDesc : List TokenSearchResult → Bool
  | [] => true
  | [_] => true
  | x :: y :: rest => score y ≤ score x && isSortedByScoreDesc (y :: rest)

/-- The `tokens` value of a search response after JSON parsing: either a
flat array or a per-chain grouped map (`Object.values` order, with
non-array entries already dropped as the loop does). -/
inductive TokensValue
  | flat (l : List TokenSearchResult)
  | grouped (groups : List (List TokenSearchResult))
deriving DecidableEq, Repr

/-- A parsed `/tokens/search` response body (`data.success`, and the
`data.result.tokens || data.result` value when present). -/
structure SearchResponse where
  success : Bool
  result : Option TokensValue
deriving DecidableEq, Repr

/-- `searchTokens` from the API client, as a function of the parsed
response: a failed response throws; a flat array is returned as-is; a
grouped map is flattened and sorted by score (descending, stable). -/
def searchTokens (resp : SearchResponse) : Except String (List TokenSearchResult) :=
  match resp.success, resp.result with
  | true, some tv =>
    match tv with
    | .flat l => .ok l
    | .grouped gs => .ok (sortByScoreDesc gs.flatten)
  | _, _ => .error "Failed to search tokens"

-- ============ Search cache (src/unnamed/part_000, cachedSearch) ============

/-- One `searchCache` entry: the results plus the `Date.now()` at insert. -/
structure CacheEntry where
  results : List TokenSearchResult
  ts : Nat
deriving DecidableEq, Repr

/-- The in-process `searchCache` `Map`, as an association list. -/
abbrev SearchCache := List (String × CacheEntry)

/-- `searchCache.get(key)`. -/
def cacheGet (c : SearchCache) (k : String) : Option CacheEntry :=
  match c.find? (fun p => p.1 == k) with
  | some p => some p.2
  | none => none

/-- `searchCache.set(key, v)`: replace an existing binding or append. -/
def cacheSet (c : SearchCache) (k : String) (v : CacheEntry) : SearchCache :=
  match c with
  | [] => [(k, v)]
  | p :: rest => if p.1 == k then (k, v) :: rest else p :: cacheSet rest k v

/-- `CACHE_TTL = 60_000` ms. -/
def CACHE_TTL : Nat := 60000

/-- Outcome of one `cachedSearch` call: the results, the cache afterwards,
and how many network calls (`searchTokens` fetches) were issued (0 or 1). -/
structure SearchRun where
  results : List TokenSearchResult
  cache : SearchCache
  netCalls : Nat
deriving DecidableEq, Repr

/-- `cachedSearch(query)`: key is the lower-cased query; a hit younger than
the TTL short-circuits the network call.  `now` is `Date.now()` and
`fetched` the oracle for what `searchTokens(query)` would return. -/
def cachedSearch (c : SearchCache) (query : String) (now : Nat)
    (fetched : List TokenSearchResult) : SearchRun :=
  let key := strToLower query
  match cacheGet c key with
  | some e =>
    if now - e.ts < CACHE_TTL then ⟨e.results, c, 0⟩
    else ⟨fetched, cacheSet c key ⟨fetched, now⟩, 1⟩
  | none => ⟨fetched, cacheSet c key ⟨fetched, now⟩, 1⟩

-- ============ Token resolution (src/unnamed/part_000, resolveToken) ============

/-- The metadata triple `resolveToken` returns. -/
structure Resolved where
  address : String
  symbol : String
  decimals : Nat
deriving DecidableEq, Repr

/-- `resolveToken(input, chainId)`, as a function of the search results the
`cachedSearch(input)` call produced. -/
def resolveToken (input : String) (chainId : Nat)
    (results : List TokenSearchResult) : Except String Resolved :=
  let isAddress := strStartsWith input "0x" && input.length == 42
  if isAddress then
    match results.find? (fun t => strToLower t.address == strToLower input && t.chainId == chainId) with
    | some m => .ok ⟨m.address, m.symbol, m.decimals⟩
    | none =>
      match results.find? (fun t => strToLower t.address == strToLower input) with
      | some m => .ok ⟨input, m.symbol, m.decimals⟩
      | none => .ok ⟨input, strTake input 8, 18⟩
  else
    match results.find? (fun t => strToLower t.symbol == strToLower input && t.chainId == chainId) with
    | some m => .ok ⟨m.address, m.symbol, m.decimals⟩
    | none =>
      match results.find? (fun t => t.chainId == chainId) with
      | some m => .ok ⟨m.address, m.symbol, m.decimals⟩
      | none => .error "Token not found on chain"

-- ============ Status polling (src/scripts/swap.ts, pollStatus) ============

/-- `results[0]` of a status response: the numeric `bungeeStatusCode` and
the destination tx hash when present. -/
structure BStatus where
  code : Nat
  destinationTxHash : Option String
deriving DecidableEq, Repr

/-- Result of one polling run: `completed` wraps the terminal status
object; `failed` carries the thrown error message. -/
inductive PollResult
  | completed (st : BStatus)
  | failed (msg : String)
deriving DecidableEq, Repr

/-- Observable side effects of a swap run, in order. -/
inductive Event
  | validateNative
  | validatePermit2
  | checkAllowance
  | simulateApproval
  | sendApproval
  | estimateGas
  | sendTx
  | sign
  | submitPost
  | sleep (ms : Nat)
  | queryStatus
deriving DecidableEq, Repr

/-- Loop body of `pollStatus`: `i` is the iteration index, `rem` the
remaining attempts.  Each iteration sleeps (15s for the first 4 attempts,
then 30s) and queries; the oracle `q i` is the outcome of the `i`-th
`getStatus` call: a thrown error, or `results[0]` (possibly `undefined`).
Codes 3/4 return the status, 5/6/7 throw distinct errors, anything else
loops.  Exhausting `rem` throws the timeout error. -/
def pollAux (q : Nat → Except String (Option BStatus)) :
    Nat → Nat → List Event × PollResult
  | _, 0 => ([], .failed "Polling timed out")
  | i, rem + 1 =>
    let d : Nat := if i < 4 then 15000 else 30000
    match q i with
    | .error msg => ([.sleep d, .queryStatus], .failed msg)
    | .ok none =>
      let r := pollAux q (i + 1) rem
      (.sleep d :: .queryStatus :: r.1, r.2)
    | .ok (some st) =>
      if st.code = 3 ∨ st.code = 4 then ([.sleep d, .queryStatus], .completed st)
      else if st.code = 5 then ([.sleep d, .queryStatus], .failed "Request expired")
      else if st.code = 6 then ([.sleep d, .queryStatus], .failed "Request cancelled")
      else if st.code = 7 then ([.sleep d, .queryStatus], .failed "Request refunded")
      else
        let r := pollAux q (i + 1) rem
        (.sleep d :: .queryStatus :: r.1, r.2)

/-- `pollStatus(requestHash, log, maxAttempts = 20)`. -/
def pollStatus (q : Nat → Except String (Option BStatus)) (maxAttempts : Nat) :
    List Event × PollResult :=
  pollAux q 0 maxAttempts

/-- The distinct message `pollStatus` throws for terminal failure code `c`. -/
def terminalMsg (c : Nat) : String :=
  if c = 5 then "Request expired"
  else if c = 6 then "Request cancelled"
  else "Request refunded"

/-- A status-query outcome the loop treats as non-terminal: a successful
query whose first result is absent or carries none of the codes 3-7. -/
def isNonTerminal : Except String (Option BStatus) → Bool
  | .ok none => true
  | .ok (some st) => decide (st.code ≠ 3 ∧ st.code ≠ 4 ∧ st.code ≠ 5 ∧ st.code ≠ 6 ∧ st.code ≠ 7)
  | .error _ => false

-- ============ Submission (src/unnamed/part_000, submitPermit2) ============

/-- Outcome of one POST to `/api/v1/bungee/submit`: a thrown network/fetch
error (connection failure, 429, non-JSON body), or a parsed body with its
`success` flag and optional `result.requestHash`. -/
inductive SubmitOutcome
  | netError (msg : String)
  | api (success : Bool) (requestHash : Option String)
deriving DecidableEq, Repr

/-- Body of one submit attempt: `if (!data.success || !data.result?.requestHash)
throw Submit error; return data.result.requestHash`. -/
def submitAttempt (resp : SubmitOutcome) : Except String String :=
  match resp with
  | .netError m => .error m
  | .api success rh =>
    if success then
      match rh with
      | some h => .ok h
      | none => .error "Submit error"
    else .error "Submit error"

/-- `submitPermit2(payload)`: the POST wrapped in `withRetry` with the
default 3 attempts / 1000 ms.  `responses i` is the oracle for the `i`-th
POST; `calls` of the returned run is therefore the number of POSTs. -/
def submitPermit2 (responses : Nat → SubmitOutcome) : RetryRun String :=
  withRetry (fun i => submitAttempt (responses i)) 3 1000

-- ============ Swap execution (src/scripts/swap.ts) ============

/-- `quote.approvalData` (`{ tokenAddress, spenderAddress, amount }`). -/
structure ApprovalData where
  tokenAddress : String
  spenderAddress : String
  amount : Int
deriving DecidableEq, Repr

/-- The `QuoteResult` fields the execution core reads.  Optional fields are
`null`/`undefined` as `none`; `witness` is the opaque payload forwarded to
submission. -/
structure Quote where
  quoteId : String
  requestType : String
  witness : Option String
  signTypedData : Option SignTypedData
  approvalData : Option ApprovalData
  txData : Option TxData
  userOp : Option String
  requestHash : Option String
  inputAmount : Int
  inputToken : String
  originChain : Nat
deriving Repr

/-- Oracle for every chain/RPC/settlement response one swap run consumes:
current allowance, whether the approval simulation succeeds, the gas
estimate (`none` = `estimateGas` throws), gas price, native balance, the
per-attempt submit outcomes and the per-query status outcomes. -/
structure Env where
  allowance : Int
  simulateOk : Bool
  gasEstimate : Option Int
  gasPrice : Int
  balance : Int
  submit : Nat → SubmitOutcome
  status : Nat → Except String (Option BStatus)

/-- What a flow returns on success (`{ requestHash, status }`). -/
structure SwapDone where
  requestHash : String
  status : BStatus
deriving DecidableEq, Repr

/-- `handleApproval`: read the allowance (for the spender, translated from
the `'0'` sentinel to `PERMIT2_ADDRESS` — the translation only picks which
address the oracle answers for); return if it covers the amount; otherwise
simulate the approval (a revert is fatal) and send + confirm it. -/
def handleApproval (approvalData : ApprovalData) (env : Env) :
    List Event × Except String Unit :=
  if approvalData.amount ≤ env.allowance then
    ([.checkAllowance], .ok ())
  else if env.simulateOk then
    ([.checkAllowance, .simulateApproval, .sendApproval], .ok ())
  else
    ([.checkAllowance, .simulateApproval], .error "Approval would fail")

/-- Step 1 of `executePermit2Swap`: `if (quote.approvalData?.tokenAddress)`
(JS truthiness: present and a nonempty string) run `handleApproval`. -/
def approvalStep (q : Quote) (env : Env) : List Event × Except String Unit :=
  match q.approvalData with
  | some ad => if ad.tokenAddress ≠ "" then handleApproval ad env else ([], .ok ())
  | none => ([], .ok ())

/-- `executePermit2Swap`: approval step, gas-balance guard, presence check
for `signTypedData`/`witness`, `validatePermit2SignData`, sign, submit
through `submitPermit2` (one `submitPost` event per POST attempt), then
poll.  The expected amount handed to validation is `quote.inputAmount`
(its canonical decimal string). -/
def executePermit2Swap (q : Quote) (env : Env) :
    List Event × Except String SwapDone :=
  match approvalStep q env with
  | (atr, .error e) => (atr, .error e)
  | (atr, .ok _) =>
    if env.balance = 0 then (atr, .error "Wallet has no ETH for gas fees")
    else
      match q.signTypedData, q.witness with
      | some std, some _ =>
        match validatePermit2SignData std q.inputToken (toString q.inputAmount) with
        | .error e => (atr ++ [.validatePermit2], .error e)
        | .ok _ =>
          match (submitPermit2 env.submit).result with
          | .error e =>
            (atr ++ .validatePermit2 :: .sign ::
              List.replicate (submitPermit2 env.submit).calls Event.submitPost, .error e)
          | .ok rh =>
            match pollStatus env.status 20 with
            | (ptr, .completed st) =>
              (atr ++ .validatePermit2 :: .sign ::
                (List.replicate (submitPermit2 env.submit).calls Event.submitPost ++ ptr),
                .ok ⟨rh, st⟩)
            | (ptr, .failed m) =>
              (atr ++ .validatePermit2 :: .sign ::
                (List.replicate (submitPermit2 env.submit).calls Event.submitPost ++ ptr),
                .error m)
      | _, _ => (atr, .error "Missing signTypedData or witness")

/-- `executeNativeTokenSwap`: presence checks, `validateNativeTxData`, gas
estimation (a failure is fatal), balance check against `value + gas`, the
direct send + confirmation, then polling with the quote's request hash. -/
def executeNativeTokenSwap (q : Quote) (env : Env) :
    List Event × Except String SwapDone :=
  match q.txData with
  | none => ([], .error "Missing txData for native token swap")
  | some td =>
    match q.requestHash with
    | none => ([], .error "Missing requestHash for native token swap")
    | some rh =>
      match validateNativeTxData td q.inputAmount q.originChain with
      | .error e => ([.validateNative], .error e)
      | .ok _ =>
        match env.gasEstimate with
        | none => ([.validateNative, .estimateGas], .error "Transaction would fail")
        | some g =>
          if env.balance < td.value + g * env.gasPrice then
            ([.validateNative, .estimateGas], .error "Insufficient balance")
          else
            match pollStatus env.status 20 with
            | (ptr, .completed st) =>
              (.validateNative :: .estimateGas :: .sendTx :: ptr, .ok ⟨rh, st⟩)
            | (ptr, .failed m) =>
              (.validateNative :: .estimateGas :: .sendTx :: ptr, .error m)

/-- Modelled from the spec: `isNativeToken` lives in `src/scripts/types.ts`,
which is not among the provided sources.  Per the glossary and the skill
docs, the native token is denoted by the `0xEeee…EEeE` sentinel address,
compared case-insensitively. -/
def isNativeToken (addr : String) : Bool :=
  strToLower addr == "0xeeeeeeeeeeeeeeeeeeeeeeeeeeeeeeeeeeeeeeee"

/-- `executeSwap`: dispatch on `quote.userOp === 'tx' && quote.txData`;
otherwise a native-token input without `txData` is an error, and every
remaining quote goes down the permit2 path. -/
def executeSwap (q : Quote) (env : Env) : List Event × Except String SwapDone :=
  if q.userOp = some "tx" ∧ q.txData.isSome then
    executeNativeTokenSwap q env
  else if isNativeToken q.inputToken then
    ([], .error "Native token swap expected txData but none provided in quote")
  else
    executePermit2Swap q env

-- ============ Trace predicates ============

/-- Events recording a completed quote validation. -/
def isValidationEvent : Event → Bool
  | .validateNative => true
  | .validatePermit2 => true
  | _ => false

/-- Events that spend or authorize spending: an on-chain send (swap tx or
approval tx), producing a signature, or posting the signed authorization. -/
def isSpendOrSignEvent : Event → Bool
  | .sendApproval => true
  | .sendTx => true
  | .sign => true
  | .submitPost => true
  | _ => false

/-- Like `isSpendOrSignEvent`, but exempting the approval transaction. -/
def isSignOrSendEvent : Event → Bool
  | .sendTx => true
  | .sign => true
  | .submitPost => true
  | _ => false

/-- No event satisfying `bad` occurs before the first validation event
(and none at all when the trace has no validation event). -/
def noSpendBeforeVal (bad : Event → Bool) : List Event → Bool
  | [] => true
  | e :: es => if isValidationEvent e then true else !bad e && noSpendBeforeVal bad es

/-- Recognizer for `/submit` POST events. -/
def isPostEvent : Event → Bool
  | .submitPost => true
  | _ => false

/-- Recognizer for status-query events. -/
def isQueryEvent : Event → Bool
  | .queryStatus => true
  | _ => false

/-- Recognizer for sleep events. -/
def isSleepEvent : Event → Bool
  | .sleep _ => true
  | _ => false

/-- Number of `/submit` POSTs in a trace. -/
def countPosts (tr : List Event) : Nat := tr.countP isPostEvent

/-- Number of status queries in a trace. -/
def countQueries (tr : List Event) : Nat := tr.countP isQueryEvent

/-- Number of sleeps in a trace. -/
def countSleeps (tr : List Event) : Nat := tr.countP isSleepEvent

-- ============ Concrete inputs and spec-side rankings used by theorems ============

/-- A wrapped call that fails once with a non-retryable error, then succeeds. -/
def nonRetryableThenOk : Nat → Except String Nat :=
  fun i => if i = 0 then .error "boom" else .ok 7

/-- A wrapped call that fails twice then succeeds. -/
def nonRetryableThenOkTwice : Nat → Except String Nat :=
  fun i => if i = 0 then .error "a" else if i = 1 then .error "b" else .ok 5

/-- A wrapped call that never succeeds, with distinguishable errors. -/
def failAlways : Nat → Except String Nat := fun i => .error ("e" ++ toString i)

/-- A small concrete token used by witnesses. -/
def usdcBase : TokenSearchResult :=
  ⟨8453, "0x833589fCD6eDb6E08f4c7C32D4f71b54bdA02913", "USDC", 6, true, false⟩

/-- A status oracle that reports `Expired` (code 5) on the very first query. -/
def expiredAtOnce : Nat → Except String (Option BStatus) := fun _ => .ok (some ⟨5, none⟩)

/-- The entries of the input with score exactly `k`, in input order. -/
def scoreFilter (k : Nat) (l : List TokenSearchResult) : List TokenSearchResult :=
  l.filter (fun t => score t == k)

/-- The stable descending ranking by score, described directly: score-3
entries in input order, then score-2, then score-1, then score-0. -/
def rankedByScore (l : List TokenSearchResult) : List TokenSearchResult :=
  scoreFilter 3 l ++ scoreFilter 2 l ++ scoreFilter 1 l ++ scoreFilter 0 l

/-- The unverified 18-decimal "Fake USDC" duplicate on chain 8453. -/
def fakeUSDC : TokenSearchResult :=
  ⟨8453, "0xFAKE000000000000000000000000000000000000", "USDC", 18, false, false⟩

/-- A signed-flow quote whose approval is needed and whose typed data has a
wrong verifying contract. -/
def quoteBadDomain : Quote :=
  ⟨"q1", "SINGLE_OUTPUT_REQUEST", some "witness",
    some ⟨⟨"0xDEAD00000000000000000000000000000000DEAD"⟩, ⟨none⟩⟩,
    some ⟨"0xA0b86991c6218b36c1d19D4a2e9Eb0cE3606eB48", "0", 100⟩,
    none, none, none, 5, "0xA0b86991c6218b36c1d19D4a2e9Eb0cE3606eB48", 8453⟩

/-- A world where the allowance is short, the approval simulation passes,
and nothing further matters. -/
def envApprovalNeeded : Env :=
  ⟨0, true, none, 0, 1, fun _ => .netError "unused", fun _ => .error "unused"⟩

/-- A well-formed signed-flow quote with no approval needed. -/
def quoteOkP2 : Quote :=
  ⟨"q2", "SINGLE_OUTPUT_REQUEST", some "witness",
    some ⟨⟨PERMIT2_ADDRESS⟩, ⟨some ⟨"5", "0xA0b86991c6218b36c1d19D4a2e9Eb0cE3606eB48"⟩⟩⟩,
    none, none, none, none, 5, "0xA0b86991c6218b36c1d19D4a2e9Eb0cE3606eB48", 8453⟩

/-- A world where the first submit POST fails transiently, the second
succeeds, and the first status query reports completion. -/
def envSubmitRetry : Env :=
  ⟨0, true, none, 0, 1,
    fun i => if i = 0 then .netError "fetch failed: connection reset" else .api true (some "0xhash"),
    fun _ => .ok (some ⟨3, some "0xdesthash"⟩)⟩

/-- A world where the first submit POST already succeeds. -/
def envSubmitOk : Env :=
  ⟨0, true, none, 0, 1, fun _ => .api true (some "0xh"), fun _ => .ok (some ⟨3, none⟩)⟩

/-- A quote with a native-token input but no `txData`. -/
def quoteNativeMissingTx : Quote :=
  ⟨"q3", "SINGLE_OUTPUT_REQUEST", none, none, none, none, none, none,
    1000000000000000, "0xEeeeeEeeeEeEeeEeEeEeeEEEeeeeEeeeeeeeEEeE", 8453⟩

-- ============ C3: native-flow validation ============

/-- C3, counterexample: the claim says `validateNativeTxData` raises
whenever the payload carries a chain id different from the expected one,
but a carried chain id of `0` is falsy in `txData.chainId && ...`, so a
payload with `chainId = 0` and expected chain `8453` passes validation
although its chain id differs. -/
theorem validateNativeTxData_chainZero_counterexample :
    isError (validateNativeTxData
      ⟨"0x1111111111111111111111111111111111111111", "0x", 5, some 0⟩ 5 8453) = false ∧
    ((5 : Int) ≠ 5 ∨ "0x1111111111111111111111111111111111111111" = zeroAddress ∨
      ∃ ch, (some 0 : Option Nat) = some ch ∧ ch ≠ 8453) := by
  refine ⟨by decide, Or.inr (Or.inr ⟨0, rfl, by decide⟩)⟩

/-- C3 (amended): `validateNativeTxData(txData, expectedAmount,
expectedChainId)` raises if and only if `txData.value` differs from
`expectedAmount`, or `txData.to` is the all-zero address, or `txData`
carries a *nonzero* chain id different from `expectedChainId` (a chain id
of zero is treated as absent); otherwise it returns without error. -/
theorem validateNativeTxData_error_iff (td : TxData) (a : Int) (c : Nat) :
    isError (validateNativeTxData td a c) = true ↔
      (td.value ≠ a ∨ td.«to» = zeroAddress ∨
        ∃ ch, td.chainId = some ch ∧ ch ≠ 0 ∧ ch ≠ c) := by
  unfold validateNativeTxData
  by_cases h1 : td.value ≠ a
  · simp [h1, isError]
  · push_neg at h1
    by_cases h2 : td.«to» = zeroAddress
    · simp [h1, h2, isError]
    · cases hch : td.chainId with
      | none => simp [h1, h2, hch, isError]
      | some ch =>
        by_cases h3 : ch ≠ 0 ∧ ch ≠ c
        · simp [h1, h2, hch, h3, isError]
        · simp [h1, h2, hch, h3, isError]

-- ============ C4: signed-flow validation ============

/-- C4 (confirmed): `validatePermit2SignData` raises if and only if the
domain's verifying contract differs case-insensitively from the canonical
Permit2 address, or a `permitted` sub-object is present whose amount
string differs from the expected amount or whose token differs
case-insensitively from the expected token; absence of `permitted` is
tolerated. -/
theorem validatePermit2SignData_error_iff (std : SignTypedData) (tok amt : String) :
    isError (validatePermit2SignData std tok amt) = true ↔
      (strToLower std.domain.verifyingContract ≠ strToLower PERMIT2_ADDRESS ∨
        ∃ p, std.values.permitted = some p ∧
          (p.amount ≠ amt ∨ strToLower p.token ≠ strToLower tok)) := by
  unfold validatePermit2SignData
  by_cases h1 : strToLower std.domain.verifyingContract ≠ strToLower PERMIT2_ADDRESS
  · simp [h1, isError]
  · push_neg at h1
    cases hp : std.values.permitted with
    | none => simp [h1, hp, isError]
    | some p =>
      by_cases h2 : p.amount ≠ amt
      · simp [h1, hp, h2, isError]
      · push_neg at h2
        by_cases h3 : strToLower p.token ≠ strToLower tok
        · simp [h1, hp, h2, h3, isError]
        · push_neg at h3
          simp [h1, hp, h2, h3, isError]

-- ============ Retry lemmas (C5, C6) ============

/-- At least one invocation happens per run when any attempts remain. -/
theorem withRetryAux_calls_ge {α : Type} (fn : Nat → Except String α) (δ : Nat) :
    ∀ rem i, 1 ≤ rem → i + 1 ≤ (withRetryAux fn δ i rem).calls := by
  intro rem
  induction rem with
  | zero => omega
  | succ r ih =>
    intro i _
    simp only [withRetryAux]
    cases hf : fn i with
    | ok v => simp
    | error e =>
      by_cases hr : r = 0
      · simp [hr]
      · have := ih (i + 1) (by omega)
        simp only [if_neg hr]
        omega

/-- The wrapped call is never invoked more than `rem` further times. -/
theorem withRetryAux_calls_le {α : Type} (fn : Nat → Except String α) (δ : Nat) :
    ∀ rem i, (withRetryAux fn δ i rem).calls ≤ i + rem := by
  intro rem
  induction rem with
  | zero => simp [withRetryAux]
  | succ r ih =>
    intro i
    simp only [withRetryAux]
    cases hf : fn i with
    | ok v => simp
    | error e =>
      by_cases hr : r = 0
      · simp [hr]
      · have := ih (i + 1)
        simp only [if_neg hr]
        omega

/-- If the first success is the `k`-th invocation (0-based) and it is
within the attempt budget, the run returns that success after exactly
`k + 1` invocations. -/
theorem withRetryAux_firstOk {α : Type} (fn : Nat → Except String α) (δ : Nat) (v : α) :
    ∀ (k rem i : Nat), k < rem →
      (∀ j, j < k → isError (fn (i + j)) = true) →
      fn (i + k) = .ok v →
      (withRetryAux fn δ i rem).result = .ok v ∧
      (withRetryAux fn δ i rem).calls = i + k + 1 := by
  intro k
  induction k with
  | zero =>
    intro rem i hlt _ hok
    cases rem with
    | zero => omega
    | succ r =>
      simp only [Nat.add_zero] at hok
      simp [withRetryAux, hok]
  | succ k ih =>
    intro rem i hlt hfail hok
    cases rem with
    | zero => omega
    | succ r =>
      have h0 : isError (fn i) = true := by simpa using hfail 0 (by omega)
      cases hf : fn i with
      | ok w => rw [hf] at h0; simp [isError] at h0
      | error e =>
        have hr : r ≠ 0 := by omega
        simp only [withRetryAux, hf, if_neg hr]
        have := ih r (i + 1) (by omega)
          (fun j hj => by
            have := hfail (j + 1) (by omega)
            simpa [Nat.add_assoc, Nat.add_comm, Nat.add_left_comm] using this)
          (by simpa [Nat.add_assoc, Nat.add_comm, Nat.add_left_comm] using hok)
        refine ⟨this.1, by rw [this.2]; omega⟩

/-- If every invocation in the budget fails, the run makes exactly `rem`
further invocations and re-raises the final invocation's error. -/
theorem withRetryAux_allFail {α : Type} (fn : Nat → Except String α) (δ : Nat)
    (es : Nat → String) :
    ∀ (rem i : Nat), 1 ≤ rem →
      (∀ j, j < rem → fn (i + j) = .error (es (i + j))) →
      (withRetryAux fn δ i rem).result = .error (es (i + rem - 1)) ∧
      (withRetryAux fn δ i rem).calls = i + rem := by
  intro rem
  induction rem with
  | zero => omega
  | succ r ih =>
    intro i _ hall
    have h0 : fn i = .error (es i) := by simpa using hall 0 (by omega)
    by_cases hr : r = 0
    · subst hr
      simp [withRetryAux, h0]
    · simp only [withRetryAux, h0, if_neg hr]
      have := ih (i + 1) (by omega)
        (fun j hj => by
          have := hall (j + 1) (by omega)
          simpa [Nat.add_assoc, Nat.add_comm, Nat.add_left_comm] using this)
      have harg : i + 1 + r - 1 = i + (r + 1) - 1 := by omega
      refine ⟨by rw [this.1, harg], by rw [this.2]; omega⟩

/-- An error result is produced only on the final allowed invocation, and
it is that invocation's error, unchanged. -/
theorem withRetryAux_error_final {α : Type} (fn : Nat → Except String α) (δ : Nat) :
    ∀ (rem i : Nat), 1 ≤ rem →
      isError (withRetryAux fn δ i rem).result = true →
      (withRetryAux fn δ i rem).calls = i + rem ∧
      (withRetryAux fn δ i rem).result = fn (i + rem - 1) := by
  intro rem
  induction rem with
  | zero => omega
  | succ r ih =>
    intro i _ herr
    cases hf : fn i with
    | ok v => rw [withRetryAux, hf] at herr ⊢; simp [isError] at herr
    | error e =>
      by_cases hr : r = 0
      · subst hr
        simp [withRetryAux, hf]
      · rw [withRetryAux, hf] at herr ⊢
        simp only [if_neg hr] at herr ⊢
        have := ih (i + 1) (by omega) herr
        have harg : i + 1 + r - 1 = i + (r + 1) - 1 := by omega
        refine ⟨by rw [this.1]; omega, by rw [this.2, harg]⟩

-- ============ C5: retry absorbs only retryable errors? ============


/-- C5, counterexample: "boom" is not classified retryable, yet `withRetry`
does not re-raise it — it invokes the wrapped call a second time and
returns that invocation's success, so non-retryable errors are absorbed
too. -/
theorem withRetry_nonretryable_counterexample :
    isRateLimitErr "boom" = false ∧
    nonRetryableThenOk 0 = .error "boom" ∧
    (withRetry nonRetryableThenOk 3 1000).result = .ok 7 ∧
    (withRetry nonRetryableThenOk 3 1000).calls = 2 := by
  refine ⟨by decide, rfl, by decide, by decide⟩

/-- C5 (amended): the utility retries *every* failure occurring before the
final allowed attempt, whether or not it is in the explicitly-retryable
subset (HTTP 429, non-JSON body, connection failure); the classification
only selects the longer backoff wait.  An error is re-raised, unchanged,
only once the attempt budget is exhausted, and it is the final
invocation's error. -/
theorem withRetry_retries_every_failure (α : Type) (fn : Nat → Except String α)
    (attempts δ : Nat) (e : String) (h2 : 2 ≤ attempts) (h0 : fn 0 = .error e) :
    2 ≤ (withRetry fn attempts δ).calls ∧
    (withRetry fn attempts δ).waits.head? =
      some (if isRateLimitErr e then (max (δ * 1) 3000) * 1 else δ * 1) ∧
    (isError (withRetry fn attempts δ).result = true →
      (withRetry fn attempts δ).calls = attempts ∧
      (withRetry fn attempts δ).result = fn (attempts - 1)) := by
  obtain ⟨n, rfl⟩ : ∃ n, attempts = n + 2 := ⟨attempts - 2, by omega⟩
  have hr : n + 1 ≠ 0 := by omega
  refine ⟨?_, ?_, ?_⟩
  · show 2 ≤ (withRetryAux fn δ 0 (n + 2)).calls
    rw [withRetryAux, h0]
    simp only [if_neg hr]
    have := withRetryAux_calls_ge fn δ (n + 1) (0 + 1) (by omega)
    omega
  · show (withRetryAux fn δ 0 (n + 2)).waits.head? = _
    rw [withRetryAux, h0]
    simp only [if_neg hr]
    rfl
  · intro herr
    have := withRetryAux_error_final fn δ (n + 2) 0 (by omega)
      (by simpa [withRetry] using herr)
    constructor
    · have h := this.1
      simp only [withRetry]
      omega
    · have h := this.2
      simp only [withRetry]
      rw [h]
      congr 1
      omega

/-- C5 amended, witness at a concrete call and budget. -/
theorem withRetry_retries_every_failure_witness :
    2 ≤ (withRetry nonRetryableThenOk 3 1000).calls ∧
    (withRetry nonRetryableThenOk 3 1000).waits.head? =
      some (if isRateLimitErr "boom" then (max (1000 * 1) 3000) * 1 else 1000 * 1) ∧
    (isError (withRetry nonRetryableThenOk 3 1000).result = true →
      (withRetry nonRetryableThenOk 3 1000).calls = 3 ∧
      (withRetry nonRetryableThenOk 3 1000).result = nonRetryableThenOk (3 - 1)) :=
  withRetry_retries_every_failure Nat nonRetryableThenOk 3 1000 "boom" (by omega) rfl

-- ============ C6: retry invocation counts ============

/-- C6 (confirmed): with the default budget of 3 attempts, a call that
fails twice then succeeds is invoked exactly 3 times and its success value
is returned; a call that never succeeds is invoked exactly `attempts`
times and the final invocation's failure is raised. -/
theorem withRetry_invocation_counts :
    (∀ (α : Type) (fn : Nat → Except String α) (δ : Nat) (e0 e1 : String) (v : α),
        fn 0 = .error e0 → fn 1 = .error e1 → fn 2 = .ok v →
        (withRetry fn 3 δ).result = .ok v ∧ (withRetry fn 3 δ).calls = 3) ∧
    (∀ (α : Type) (fn : Nat → Except String α) (es : Nat → String) (attempts δ : Nat),
        1 ≤ attempts → (∀ i, i < attempts → fn i = .error (es i)) →
        (withRetry fn attempts δ).result = .error (es (attempts - 1)) ∧
        (withRetry fn attempts δ).calls = attempts) := by
  constructor
  · intro α fn δ e0 e1 v h0 h1 h2
    have := withRetryAux_firstOk fn δ v 2 3 0 (by omega)
      (fun j hj => by
        interval_cases j
        · simp [h0, isError]
        · simp [h1, isError])
      (by simpa using h2)
    simpa [withRetry] using this
  · intro α fn es attempts δ h1 hall
    have := withRetryAux_allFail fn δ es attempts 0 h1
      (fun j hj => by simpa using hall j hj)
    simpa [withRetry] using this



/-- C6, witness: both scenarios at concrete calls. -/
theorem withRetry_invocation_counts_witness :
    ((withRetry nonRetryableThenOkTwice 3 1000).result = .ok 5 ∧
      (withRetry nonRetryableThenOkTwice 3 1000).calls = 3) ∧
    ((withRetry failAlways 4 1000).result = .error ("e" ++ toString 3) ∧
      (withRetry failAlways 4 1000).calls = 4) :=
  ⟨withRetry_invocation_counts.1 Nat nonRetryableThenOkTwice 1000 "a" "b" 5 rfl rfl rfl,
    withRetry_invocation_counts.2 Nat failAlways (fun i => "e" ++ toString i) 4 1000
      (by omega) (fun i _ => rfl)⟩

-- ============ C9: cache behaviour ============

/-- Setting a key makes it immediately retrievable. -/
theorem cacheGet_cacheSet (c : SearchCache) (k : String) (v : CacheEntry) :
    cacheGet (cacheSet c k v) k = some v := by
  induction c with
  | nil => simp [cacheSet, cacheGet, List.find?]
  | cons p rest ih =>
    by_cases h : p.1 == k
    · simp [cacheSet, cacheGet, List.find?, h]
    · have hb : (p.1 == k) = false := by simpa using h
      simpa [cacheSet, cacheGet, List.find?, hb] using ih

/-- C9 (confirmed): starting from a cache with no entry for the query, the
first search issues exactly one network call, and a second search for the
same query within the 60s TTL issues none — it is served from the cache
(keyed by the lower-cased query) and returns the first search's results. -/
theorem cachedSearch_single_network_call (c0 : SearchCache) (query : String)
    (now1 now2 : Nat) (fetched1 fetched2 : List TokenSearchResult)
    (hmiss : cacheGet c0 (strToLower query) = none)
    (httl : now2 - now1 < CACHE_TTL) :
    (cachedSearch c0 query now1 fetched1).netCalls = 1 ∧
    (cachedSearch (cachedSearch c0 query now1 fetched1).cache query now2 fetched2).netCalls = 0 ∧
    (cachedSearch (cachedSearch c0 query now1 fetched1).cache query now2 fetched2).results =
      (cachedSearch c0 query now1 fetched1).results := by
  have h1 : cachedSearch c0 query now1 fetched1 =
      ⟨fetched1, cacheSet c0 (strToLower query) ⟨fetched1, now1⟩, 1⟩ := by
    simp [cachedSearch, hmiss]
  rw [h1]
  have h2 := cacheGet_cacheSet c0 (strToLower query) ⟨fetched1, now1⟩
  simp [cachedSearch, h2, httl]


/-- C9, witness: empty cache, same query at times 0 and 59999 ms. -/
theorem cachedSearch_single_network_call_witness :
    (cachedSearch [] "USDC" 0 [usdcBase]).netCalls = 1 ∧
    (cachedSearch (cachedSearch [] "USDC" 0 [usdcBase]).cache "USDC" 59999 []).netCalls = 0 ∧
    (cachedSearch (cachedSearch [] "USDC" 0 [usdcBase]).cache "USDC" 59999 []).results =
      (cachedSearch [] "USDC" 0 [usdcBase]).results :=
  cachedSearch_single_network_call [] "USDC" 0 59999 [usdcBase] [] rfl (by decide)

-- ============ C7: terminal failure codes stop polling ============

/-- If the first `k` queries are non-terminal and the `k`-th (0-based)
returns a terminal failure code, the loop performs exactly `k + 1` sleeps
and `k + 1` queries and throws the code's distinct error. -/
theorem pollAux_terminal (q : Nat → Except String (Option BStatus)) :
    ∀ (k i rem : Nat) (st : BStatus), k < rem →
      (∀ j, j < k → isNonTerminal (q (i + j)) = true) →
      q (i + k) = .ok (some st) →
      (st.code = 5 ∨ st.code = 6 ∨ st.code = 7) →
      countQueries (pollAux q i rem).1 = k + 1 ∧
      countSleeps (pollAux q i rem).1 = k + 1 ∧
      (pollAux q i rem).2 = .failed (terminalMsg st.code) := by
  intro k
  induction k with
  | zero =>
    intro i rem st hlt _ hq hc
    cases rem with
    | zero => omega
    | succ r =>
      rw [Nat.add_zero] at hq
      rcases hc with h | h | h <;>
        simp [pollAux, hq, h, terminalMsg, countQueries, countSleeps,
          List.countP_cons, isQueryEvent, isSleepEvent]
  | succ k ih =>
    intro i rem st hlt hpre hq hc
    cases rem with
    | zero => omega
    | succ r =>
      have h0 : isNonTerminal (q i) = true := by simpa using hpre 0 (by omega)
      have step := ih (i + 1) r st (by omega)
        (fun j hj => by
          have := hpre (j + 1) (by omega)
          simpa [Nat.add_assoc, Nat.add_comm, Nat.add_left_comm] using this)
        (by simpa [Nat.add_assoc, Nat.add_comm, Nat.add_left_comm] using hq) hc
      cases hqi : q i with
      | error m => rw [hqi] at h0; simp [isNonTerminal] at h0
      | ok ost =>
        cases ost with
        | none =>
          simp only [pollAux, hqi]
          have s1 := step.1
          have s2 := step.2.1
          simp only [countQueries, countSleeps] at s1 s2
          simp [countQueries, countSleeps, List.countP_cons, isQueryEvent, isSleepEvent,
            s1, s2, step.2.2]
        | some st0 =>
          rw [hqi] at h0
          simp only [isNonTerminal, decide_eq_true_eq] at h0
          obtain ⟨h3, h4, h5, h6, h7⟩ := h0
          simp only [pollAux, hqi]
          rw [if_neg (by tauto : ¬(st0.code = 3 ∨ st0.code = 4)),
            if_neg h5, if_neg h6, if_neg h7]
          have s1 := step.1
          have s2 := step.2.1
          simp only [countQueries, countSleeps] at s1 s2
          simp [countQueries, countSleeps, List.countP_cons, isQueryEvent, isSleepEvent,
            s1, s2, step.2.2]

/-- C7 (confirmed): as soon as a status query returns a terminal failure
code — 5 (expired), 6 (cancelled) or 7 (refunded) — the poller terminates
with that code's distinct error and performs no further queries or sleeps:
over the whole run there are exactly `i + 1` queries and `i + 1` sleeps
when the terminal code arrives on query `i`.  The three error kinds are
pairwise distinct. -/
theorem pollStatus_terminal_immediate (q : Nat → Except String (Option BStatus))
    (maxAttempts i : Nat) (st : BStatus) (hlt : i < maxAttempts)
    (hpre : ∀ j, j < i → isNonTerminal (q j) = true)
    (hq : q i = .ok (some st)) (hc : st.code = 5 ∨ st.code = 6 ∨ st.code = 7) :
    countQueries (pollStatus q maxAttempts).1 = i + 1 ∧
    countSleeps (pollStatus q maxAttempts).1 = i + 1 ∧
    (pollStatus q maxAttempts).2 = .failed (terminalMsg st.code) ∧
    (terminalMsg 5 ≠ terminalMsg 6 ∧ terminalMsg 5 ≠ terminalMsg 7 ∧
      terminalMsg 6 ≠ terminalMsg 7) := by
  have := pollAux_terminal q i 0 maxAttempts st hlt
    (fun j hj => by simpa using hpre j hj) (by simpa using hq) hc
  exact ⟨by simpa [pollStatus] using this.1, by simpa [pollStatus] using this.2.1,
    by simpa [pollStatus] using this.2.2, by decide, by decide, by decide⟩


/-- C7, witness: a first-query `Expired` stops the poller after exactly one
sleep and one query. -/
theorem pollStatus_terminal_immediate_witness :
    countQueries (pollStatus expiredAtOnce 20).1 = 0 + 1 ∧
    countSleeps (pollStatus expiredAtOnce 20).1 = 0 + 1 ∧
    (pollStatus expiredAtOnce 20).2 = .failed (terminalMsg (⟨5, none⟩ : BStatus).code) ∧
    (terminalMsg 5 ≠ terminalMsg 6 ∧ terminalMsg 5 ≠ terminalMsg 7 ∧
      terminalMsg 6 ≠ terminalMsg 7) :=
  pollStatus_terminal_immediate expiredAtOnce 20 0 ⟨5, none⟩ (by omega)
    (fun j hj => absurd hj (Nat.not_lt_zero j)) rfl (Or.inl rfl)

-- ============ C8: search normalization and ranking ============

/-- Scores can only be 0, 1, 2 or 3. -/
theorem score_le_three (t : TokenSearchResult) : score t ≤ 3 := by
  cases h1 : t.isShortListed <;> cases h2 : t.isVerified <;> simp [score, h1, h2]



/-- Members of a score class carry that score. -/
theorem mem_scoreFilter {k : Nat} {z : TokenSearchResult} {l : List TokenSearchResult}
    (h : z ∈ scoreFilter k l) : score z = k := by
  have := (List.mem_filter.mp h).2
  simpa using this

/-- Insertion lands right after a block of strictly-higher scores, in front
of a block of not-higher scores. -/
theorem insertByScore_append (x : TokenSearchResult) :
    ∀ (A B : List TokenSearchResult),
      (∀ y ∈ A, score x < score y) → (∀ z ∈ B, score z ≤ score x) →
      insertByScore x (A ++ B) = A ++ x :: B := by
  intro A
  induction A with
  | nil =>
    intro B _ hB
    cases B with
    | nil => rfl
    | cons z zs =>
      simp only [List.nil_append, insertByScore]
      rw [if_pos (hB z (List.mem_cons_self z zs))]
  | cons a A2 ih =>
    intro B hA hB
    simp only [List.cons_append, insertByScore]
    rw [if_neg (by have := hA a (List.mem_cons_self a A2); omega)]
    simp only [List.append_eq]
    rw [ih B (fun y hy => hA y (List.mem_cons_of_mem a hy)) hB]

/-- Inserting in front when nothing in the list outscores the element. -/
theorem insertByScore_front (x : TokenSearchResult) (B : List TokenSearchResult)
    (hB : ∀ z ∈ B, score z ≤ score x) : insertByScore x B = x :: B := by
  have := insertByScore_append x [] B (by simp) hB
  simpa using this

/-- One insertion step preserves the ranked-classes shape. -/
theorem insertByScore_ranked (x : TokenSearchResult) (l : List TokenSearchResult) :
    insertByScore x (rankedByScore l) = rankedByScore (x :: l) := by
  have hx := score_le_three x
  have hcases : score x = 0 ∨ score x = 1 ∨ score x = 2 ∨ score x = 3 := by omega
  rcases hcases with hs | hs | hs | hs
  · have e1 : rankedByScore l =
        (scoreFilter 3 l ++ scoreFilter 2 l ++ scoreFilter 1 l) ++ scoreFilter 0 l := by
      simp [rankedByScore, List.append_assoc]
    rw [e1, insertByScore_append x _ _
      (fun y hy => by
        rcases List.mem_append.mp hy with h | h
        · rcases List.mem_append.mp h with h2 | h2
          · have := mem_scoreFilter h2; omega
          · have := mem_scoreFilter h2; omega
        · have := mem_scoreFilter h; omega)
      (fun z hz => by have := mem_scoreFilter hz; omega)]
    simp [rankedByScore, scoreFilter, List.filter_cons, hs, List.append_assoc]
  · have e1 : rankedByScore l =
        (scoreFilter 3 l ++ scoreFilter 2 l) ++ (scoreFilter 1 l ++ scoreFilter 0 l) := by
      simp [rankedByScore, List.append_assoc]
    rw [e1, insertByScore_append x _ _
      (fun y hy => by
        rcases List.mem_append.mp hy with h | h
        · have := mem_scoreFilter h; omega
        · have := mem_scoreFilter h; omega)
      (fun z hz => by
        rcases List.mem_append.mp hz with h | h
        · have := mem_scoreFilter h; omega
        · have := mem_scoreFilter h; omega)]
    simp [rankedByScore, scoreFilter, List.filter_cons, hs, List.append_assoc]
  · have e1 : rankedByScore l =
        scoreFilter 3 l ++ (scoreFilter 2 l ++ (scoreFilter 1 l ++ scoreFilter 0 l)) := by
      simp [rankedByScore, List.append_assoc]
    rw [e1, insertByScore_append x _ _
      (fun y hy => by have := mem_scoreFilter hy; omega)
      (fun z hz => by
        rcases List.mem_append.mp hz with h | h
        · have := mem_scoreFilter h; omega
        · rcases List.mem_append.mp h with h2 | h2
          · have := mem_scoreFilter h2; omega
          · have := mem_scoreFilter h2; omega)]
    simp [rankedByScore, scoreFilter, List.filter_cons, hs, List.append_assoc]
  · rw [insertByScore_front x _
      (fun z hz => by
        rw [hs]
        exact score_le_three z)]
    simp [rankedByScore, scoreFilter, List.filter_cons, hs, List.append_assoc]

/-- The sort the grouped branch performs is exactly the stable descending
ranking by score. -/
theorem sortByScoreDesc_eq_ranked (l : List TokenSearchResult) :
    sortByScoreDesc l = rankedByScore l := by
  induction l with
  | nil => rfl
  | cons x xs ih => simp only [sortByScoreDesc, ih, insertByScore_ranked]


/-- C8, counterexample: a *flat-list* response is returned in delivery
order, not ranked.  With the unverified 18-decimal duplicate delivered
first, the normalized list is not score-sorted and resolving the symbol
returns the unverified token's metadata, not the verified one's. -/
theorem searchTokens_flat_unranked_counterexample :
    searchTokens ⟨true, some (.flat [fakeUSDC, usdcBase])⟩ = .ok [fakeUSDC, usdcBase] ∧
    isSortedByScoreDesc [fakeUSDC, usdcBase] = false ∧
    resolveToken "USDC" 8453 [fakeUSDC, usdcBase] =
      .ok ⟨"0xFAKE000000000000000000000000000000000000", "USDC", 18⟩ ∧
    fakeUSDC.isVerified = false ∧ usdcBase.isVerified = true ∧
    fakeUSDC.chainId = 8453 ∧ usdcBase.chainId = 8453 ∧ usdcBase.symbol = "USDC" := by
  refine ⟨rfl, by decide, by decide, rfl, rfl, rfl, rfl, rfl⟩

/-- C8 (amended): only a per-chain *grouped* response is ranked: it is
flattened in `Object.values` order and stably sorted by
score = 2·isShortlisted + 1·isVerified descending — equivalently, the
score-3 entries in input order, then score-2, score-1, score-0 — whereas a
flat-list response is returned exactly as delivered, unranked.  For
grouped responses the ranking does make symbol resolution prefer the
highest-trust duplicate: in the verified/unverified 6/18-decimal scenario
delivered grouped (unverified first), resolution returns the verified
6-decimal token. -/
theorem searchTokens_ranking_amended :
    (∀ l, searchTokens ⟨true, some (.flat l)⟩ = .ok l) ∧
    (∀ gs, searchTokens ⟨true, some (.grouped gs)⟩ = .ok (rankedByScore gs.flatten)) ∧
    searchTokens ⟨true, some (.grouped [[fakeUSDC, usdcBase]])⟩ = .ok [usdcBase, fakeUSDC] ∧
    resolveToken "USDC" 8453 [usdcBase, fakeUSDC] =
      .ok ⟨"0x833589fCD6eDb6E08f4c7C32D4f71b54bdA02913", "USDC", 6⟩ := by
  refine ⟨fun l => rfl, fun gs => ?_, by decide, by decide⟩
  simp [searchTokens, sortByScoreDesc_eq_ranked]

-- ============ Trace lemmas for the flows ============

/-- A trace of validation-free, `bad`-free events passes the check. -/
theorem noSpendBeforeVal_of_all (bad : Event → Bool) (l : List Event)
    (h : l.all (fun e => !isValidationEvent e && !bad e) = true) :
    noSpendBeforeVal bad l = true := by
  induction l with
  | nil => rfl
  | cons e es ih =>
    simp only [List.all_cons, Bool.and_eq_true, Bool.not_eq_true'] at h
    simp [noSpendBeforeVal, h.1.1, h.1.2, ih h.2]

/-- A validation-free, `bad`-free prefix does not affect the check. -/
theorem noSpendBeforeVal_append (bad : Event → Bool) (l1 l2 : List Event)
    (h : l1.all (fun e => !isValidationEvent e && !bad e) = true) :
    noSpendBeforeVal bad (l1 ++ l2) = noSpendBeforeVal bad l2 := by
  induction l1 with
  | nil => rfl
  | cons e es ih =>
    simp only [List.all_cons, Bool.and_eq_true, Bool.not_eq_true'] at h
    simp [noSpendBeforeVal, h.1.1, h.1.2, ih h.2]

/-- The approval step emits no validation event, no signature, no swap-tx
send and no POST (it can emit the approval-tx send). -/
theorem approvalStep_all (q : Quote) (env : Env) :
    (approvalStep q env).1.all (fun e => !isValidationEvent e && !isSignOrSendEvent e) = true := by
  unfold approvalStep
  cases q.approvalData with
  | none => rfl
  | some ad =>
    by_cases h : ad.tokenAddress ≠ ""
    · simp only [if_pos h]
      unfold handleApproval
      by_cases h1 : ad.amount ≤ env.allowance
      · simp [h1, isValidationEvent, isSignOrSendEvent]
      · by_cases h2 : env.simulateOk
        · simp [h1, h2, isValidationEvent, isSignOrSendEvent]
        · simp [h1, h2, isValidationEvent, isSignOrSendEvent]
    · simp only [if_neg h]
      rfl

/-- Polling emits only sleeps and queries. -/
theorem pollAux_all_poll (q : Nat → Except String (Option BStatus)) :
    ∀ rem i, (pollAux q i rem).1.all (fun e => isSleepEvent e || isQueryEvent e) = true := by
  intro rem
  induction rem with
  | zero => intro i; rfl
  | succ r ih =>
    intro i
    cases hq : q i with
    | error m => simp [pollAux, hq, isSleepEvent, isQueryEvent]
    | ok ost =>
      cases ost with
      | none =>
        simp only [pollAux, hq]
        exact ih (i + 1)
      | some st =>
        simp only [pollAux, hq]
        by_cases h34 : st.code = 3 ∨ st.code = 4
        · simp [h34, isSleepEvent, isQueryEvent]
        · rw [if_neg h34]
          by_cases h5 : st.code = 5
          · simp [h5, isSleepEvent, isQueryEvent]
          · rw [if_neg h5]
            by_cases h6 : st.code = 6
            · simp [h6, isSleepEvent, isQueryEvent]
            · rw [if_neg h6]
              by_cases h7 : st.code = 7
              · simp [h7, isSleepEvent, isQueryEvent]
              · rw [if_neg h7]
                exact ih (i + 1)

/-- Polling emits no POSTs. -/
theorem pollAux_no_post (q : Nat → Except String (Option BStatus))
    (rem i : Nat) : countPosts (pollAux q i rem).1 = 0 := by
  have h := pollAux_all_poll q rem i
  rw [countPosts, List.countP_eq_zero]
  intro e he
  have := List.all_eq_true.mp h e he
  cases e <;> simp_all [isSleepEvent, isQueryEvent, isPostEvent]

/-- The approval step emits no POSTs. -/
theorem approvalStep_no_post (q : Quote) (env : Env) :
    countPosts (approvalStep q env).1 = 0 := by
  have h := approvalStep_all q env
  rw [countPosts, List.countP_eq_zero]
  intro e he
  have := List.all_eq_true.mp h e he
  simp only [Bool.and_eq_true, Bool.not_eq_true'] at this
  cases e <;> simp_all [isSignOrSendEvent, isPostEvent]

/-- Counting POSTs in a replicated POST block. -/
theorem countPosts_replicate (n : Nat) :
    countPosts (List.replicate n Event.submitPost) = n := by
  induction n with
  | zero => rfl
  | succ m ih =>
    simp only [List.replicate, countPosts, List.countP_cons] at ih ⊢
    simp [ih, isPostEvent]

-- ============ C1: validation before signing and sending ============



/-- C1, counterexample: in the signed flow the approval transaction is
sent *before* quote validation runs — on a quote needing an approval, the
trace sends the approval tx and only then validates (and here validation
even rejects the quote, after the approval was already spent). -/
theorem approval_before_validation_counterexample :
    (executePermit2Swap quoteBadDomain envApprovalNeeded).1 =
      [.checkAllowance, .simulateApproval, .sendApproval, .validatePermit2] ∧
    noSpendBeforeVal isSpendOrSignEvent (executePermit2Swap quoteBadDomain envApprovalNeeded).1 = false ∧
    isError (executePermit2Swap quoteBadDomain envApprovalNeeded).2 = true := by
  refine ⟨by decide, by decide, by decide⟩

/-- C1 (amended): within one swap, validation still strictly precedes the
signature, the settlement POSTs and the swap transaction send: in the
native flow no spend-or-sign event at all precedes validation, and in the
signed flow no signature, POST or swap-tx send precedes validation — but
the approval transaction of the signed flow is exempt: it can be sent
before validation runs. -/
theorem validation_precedes_sign_and_send (q : Quote) (env : Env) :
    noSpendBeforeVal isSpendOrSignEvent (executeNativeTokenSwap q env).1 = true ∧
    noSpendBeforeVal isSignOrSendEvent (executePermit2Swap q env).1 = true := by
  constructor
  · unfold executeNativeTokenSwap
    split
    · rfl
    · split
      · rfl
      · split
        · rfl
        · split
          · rfl
          · split
            · rfl
            · split
              · rfl
              · rfl
  · unfold executePermit2Swap
    split
    next atr e heq =>
      have hall := approvalStep_all q env
      rw [heq] at hall
      exact noSpendBeforeVal_of_all _ atr hall
    next atr u heq =>
      have hall := approvalStep_all q env
      rw [heq] at hall
      split
      · exact noSpendBeforeVal_of_all _ atr hall
      · split
        · split
          · rw [noSpendBeforeVal_append _ atr _ hall]
            rfl
          · split
            · rw [noSpendBeforeVal_append _ atr _ hall]
              rfl
            · split
              · rw [noSpendBeforeVal_append _ atr _ hall]
                rfl
              · rw [noSpendBeforeVal_append _ atr _ hall]
                rfl
        all_goals exact noSpendBeforeVal_of_all _ atr hall

-- ============ C2: single submission per run ============



/-- C2, counterexample: when a submit attempt fails and the shared retry
policy is in effect, the signed authorization is POSTed twice for the same
quote within a single successful run. -/
theorem submit_double_post_counterexample :
    countPosts (executePermit2Swap quoteOkP2 envSubmitRetry).1 = 2 ∧
    isError (executePermit2Swap quoteOkP2 envSubmitRetry).2 = false := by
  refine ⟨by decide, by decide⟩

/-- Post counts add over concatenation. -/
theorem countPosts_append (l1 l2 : List Event) :
    countPosts (l1 ++ l2) = countPosts l1 + countPosts l2 := by
  simp [countPosts, List.countP_append]

/-- Non-POST events do not count. -/
theorem countPosts_cons_nonpost (e : Event) (l : List Event)
    (h : isPostEvent e = false) : countPosts (e :: l) = countPosts l := by
  simp [countPosts, List.countP_cons, h]

/-- Every signed-flow run POSTs exactly `calls`-of-the-submission-run many
times when it reaches the submission stage, and zero times otherwise; in
particular never more than the submission run's invocation count. -/
theorem executePermit2Swap_posts_le (q : Quote) (env : Env) :
    countPosts (executePermit2Swap q env).1 ≤ (submitPermit2 env.submit).calls := by
  have h0 := approvalStep_no_post q env
  unfold executePermit2Swap
  split
  next atr e heq =>
    rw [heq] at h0
    exact le_trans (le_of_eq h0) (Nat.zero_le _)
  next atr u heq =>
    rw [heq] at h0
    replace h0 : countPosts atr = 0 := h0
    split
    · simp [h0]
    · split
      · split
        · rw [countPosts_append, h0, countPosts_cons_nonpost Event.validatePermit2 _ rfl]
          simp [countPosts]
        · split
          · rw [countPosts_append, h0, countPosts_cons_nonpost Event.validatePermit2 _ rfl,
              countPosts_cons_nonpost Event.sign _ rfl, countPosts_replicate]
            simp
          · split
            next rh ptr st heqp =>
              have hptr : countPosts ptr = 0 := by
                have hp0 := pollAux_no_post env.status 20 0
                have he : pollStatus env.status 20 = (ptr, PollResult.completed st) := heqp
                simp only [pollStatus] at he
                rw [he] at hp0
                exact hp0
              rw [countPosts_append, h0, countPosts_cons_nonpost Event.validatePermit2 _ rfl,
                countPosts_cons_nonpost Event.sign _ rfl, countPosts_append, countPosts_replicate, hptr]
              simp
            next rh ptr m heqp =>
              have hptr : countPosts ptr = 0 := by
                have hp0 := pollAux_no_post env.status 20 0
                have he : pollStatus env.status 20 = (ptr, PollResult.failed m) := heqp
                simp only [pollStatus] at he
                rw [he] at hp0
                exact hp0
              rw [countPosts_append, h0, countPosts_cons_nonpost Event.validatePermit2 _ rfl,
                countPosts_cons_nonpost Event.sign _ rfl, countPosts_append, countPosts_replicate, hptr]
              simp
      all_goals simp [h0]

/-- A successful signed-flow run POSTs exactly as many times as the
submission run invoked the POST. -/
theorem executePermit2Swap_ok_posts (q : Quote) (env : Env) :
    isError (executePermit2Swap q env).2 = false →
    countPosts (executePermit2Swap q env).1 = (submitPermit2 env.submit).calls := by
  have h0 := approvalStep_no_post q env
  unfold executePermit2Swap
  split
  next atr e heq =>
    intro hok
    simp [isError] at hok
  next atr u heq =>
    rw [heq] at h0
    replace h0 : countPosts atr = 0 := h0
    split
    · intro hok
      simp [isError] at hok
    · split
      · split
        · intro hok
          simp [isError] at hok
        · split
          · intro hok
            simp [isError] at hok
          · split
            next rh ptr st heqp =>
              intro _
              have hptr : countPosts ptr = 0 := by
                have hp0 := pollAux_no_post env.status 20 0
                have he : pollStatus env.status 20 = (ptr, PollResult.completed st) := heqp
                simp only [pollStatus] at he
                rw [he] at hp0
                exact hp0
              rw [countPosts_append, h0, countPosts_cons_nonpost Event.validatePermit2 _ rfl,
                countPosts_cons_nonpost Event.sign _ rfl, countPosts_append,
                countPosts_replicate, hptr]
              simp
            next rh ptr m heqp =>
              intro hok
              simp [isError] at hok
      all_goals
        intro hok
        simp [isError] at hok

/-- C2 (amended): per run of the signed flow, the submission client is
entered at most once, and inside it the shared retry policy may re-POST
the signed authorization on failed attempts: a run POSTs at most 3 times
(the retry budget); a successful run POSTs at least once and returns
exactly the one settlement id of the succeeding attempt; and when the
first POST attempt succeeds there is exactly one invocation, so exactly
one POST and one settlement id. -/
theorem submit_post_bounds (q : Quote) (env : Env) :
    countPosts (executePermit2Swap q env).1 ≤ 3 ∧
    (isError (executePermit2Swap q env).2 = false →
      1 ≤ countPosts (executePermit2Swap q env).1) ∧
    (∀ h, submitAttempt (env.submit 0) = .ok h →
      (submitPermit2 env.submit).calls = 1 ∧ (submitPermit2 env.submit).result = .ok h) := by
  have hle := executePermit2Swap_posts_le q env
  have hcalls_le : (submitPermit2 env.submit).calls ≤ 3 := by
    have := withRetryAux_calls_le (fun i => submitAttempt (env.submit i)) 1000 3 0
    simpa [submitPermit2, withRetry] using this
  have hcalls_ge : 1 ≤ (submitPermit2 env.submit).calls := by
    have := withRetryAux_calls_ge (fun i => submitAttempt (env.submit i)) 1000 3 0 (by omega)
    simpa [submitPermit2, withRetry] using this
  refine ⟨by omega, ?_, ?_⟩
  · intro hok
    rw [executePermit2Swap_ok_posts q env hok]
    exact hcalls_ge
  · intro h hok
    have := withRetryAux_firstOk (fun i => submitAttempt (env.submit i)) 1000 h 0 3 0
      (by omega) (fun j hj => absurd hj (Nat.not_lt_zero j)) (by simpa using hok)
    exact ⟨by simpa [submitPermit2, withRetry] using this.2,
      by simpa [submitPermit2, withRetry] using this.1⟩


/-- C2 amended, witness: a concrete successful run. -/
theorem submit_post_bounds_witness :
    countPosts (executePermit2Swap quoteOkP2 envSubmitOk).1 ≤ 3 ∧
    1 ≤ countPosts (executePermit2Swap quoteOkP2 envSubmitOk).1 ∧
    ((submitPermit2 envSubmitOk.submit).calls = 1 ∧
      (submitPermit2 envSubmitOk.submit).result = .ok "0xh") := by
  have h := submit_post_bounds quoteOkP2 envSubmitOk
  exact ⟨h.1, h.2.1 (by decide), h.2.2 "0xh" (by decide)⟩

-- ============ C10: execution routing ============

/-- C10 (confirmed): `executeSwap` takes the direct-transaction path
exactly when `quote.userOp === 'tx'` and `quote.txData` is non-null; when
that fails and the input token is the native-token sentinel it raises
without producing any event — in particular without signing, POSTing or
sending anything; every other quote is executed via the permit2 path. -/
theorem executeSwap_routing (q : Quote) (env : Env) :
    ((q.userOp = some "tx" ∧ q.txData.isSome) →
      executeSwap q env = executeNativeTokenSwap q env) ∧
    (¬(q.userOp = some "tx" ∧ q.txData.isSome) → isNativeToken q.inputToken = true →
      executeSwap q env =
        ([], .error "Native token swap expected txData but none provided in quote") ∧
      countPosts (executeSwap q env).1 = 0 ∧
      (executeSwap q env).1.all (fun e => !isSpendOrSignEvent e) = true) ∧
    (¬(q.userOp = some "tx" ∧ q.txData.isSome) → isNativeToken q.inputToken = false →
      executeSwap q env = executePermit2Swap q env) := by
  refine ⟨fun h => ?_, fun h hn => ?_, fun h hn => ?_⟩
  · simp [executeSwap, h]
  · have e : executeSwap q env =
        ([], .error "Native token swap expected txData but none provided in quote") := by
      simp [executeSwap, h, hn]
    refine ⟨e, ?_, ?_⟩ <;> rw [e] <;> rfl
  · simp [executeSwap, h, hn]


/-- C10, witness: the guard branch at a concrete native-input quote
without `txData`. -/
theorem executeSwap_routing_witness :
    executeSwap quoteNativeMissingTx envSubmitOk =
      ([], .error "Native token swap expected txData but none provided in quote") ∧
    countPosts (executeSwap quoteNativeMissingTx envSubmitOk).1 = 0 ∧
    (executeSwap quoteNativeMissingTx envSubmitOk).1.all (fun e => !isSpendOrSignEvent e) = true :=
  (executeSwap_routing quoteNativeMissingTx envSubmitOk).2.1 (by decide) (by decide)
